import Mathlib

/-!
Shallow embedding of the room-lifecycle core of the matchmaking server
(`server.py` / `room_routes.py`).

Modelling conventions:
* Python strings are `List Char` (`Str`); `str.strip()` is `pyStrip`,
  `str.isdigit()` is `List.all pyIsDigit`.
* `datetime` timestamps are `Int` seconds; `timedelta(minutes=m)` is `m * 60`.
* The global table `game_rooms : Dict[str, dict]` is an association list
  `RoomTable`, threaded explicitly through every operation.
* Each Flask handler becomes a pure function from the pre-state (table, the
  `datetime.now()` value, and the request data) to its response together with
  the post-state table.  JSON error responses become `ApiError` values.
* `random.choices(string.digits, k=6)` becomes `sampleCode` applied to a
  caller-supplied seed; the retry loop of `generate_room_code` consumes a
  list of seeds as fuel.
-/

abbrev Str := List Char

def str (s : String) : Str := s.toList

/-- Python `str.strip()` whitespace set (the six ASCII whitespace chars). -/
def pyIsSpace (c : Char) : Bool :=
  c = ' ' || c = '\t' || c = '\n' || c = '\r' || c = '\x0b' || c = '\x0c'

/-- ASCII decimal-digit test, modelling `str.isdigit()` on the codes used here. -/
def pyIsDigit (c : Char) : Bool := '0' ≤ c && c ≤ '9'

/-- Python `str.strip()`: drop leading and trailing whitespace. -/
def pyStrip (s : Str) : Str :=
  ((s.dropWhile pyIsSpace).reverse.dropWhile pyIsSpace).reverse

/-- Configuration constant `ROOM_EXPIRY_MINUTES = 30` (server.py line 26). -/
def ROOM_EXPIRY_MINUTES : Int := 30

/-- Configuration constant `MAX_PLAYERS_PER_ROOM = 10` (server.py line 27). -/
def MAX_PLAYERS_PER_ROOM : Int := 10

/-- A room record, the dict stored in `game_rooms` (server.py lines 92-100). -/
structure Room where
  code : Str
  host_name : Str
  players : List Str
  created_at : Int
  expires_at : Int
  max_players : Int
  status : Str
deriving Repr, DecidableEq

/-- The in-memory table `game_rooms`, keyed by room code. -/
abbrev RoomTable := List (Str × Room)

/-- Python dict assignment `game_rooms[code] = room`: replace an existing
entry in place, otherwise append (dicts preserve insertion order). -/
def dictSet (t : RoomTable) (k : Str) (v : Room) : RoomTable :=
  if t.any (fun p => p.1 = k) then
    t.map (fun p => if p.1 = k then (k, v) else p)
  else
    t ++ [(k, v)]

/-- Python `game_rooms.get(code)`. -/
def dictGet (t : RoomTable) (k : Str) : Option Room :=
  (t.find? (fun p => p.1 = k)).map Prod.snd

/-- `cleanup_expired_rooms` (server.py lines 39-49): delete every room with
`current_time > room['expires_at']`, i.e. keep exactly those with
`now ≤ expires_at`. -/
def cleanup_expired_rooms (now : Int) (t : RoomTable) : RoomTable :=
  t.filter (fun p => decide (now ≤ p.2.expires_at))

/-- One sample `''.join(random.choices(string.digits, k=6))`: six digit
characters derived from the seed (least-significant digit first). -/
def sampleCode (seed : Nat) : Str :=
  (List.range 6).map (fun i => (str "0123456789").getD (seed / 10 ^ i % 10) '0')

/-- `generate_room_code` (server.py lines 31-36): keep sampling until the
sample is not a key of the table.  The unbounded `while True` loop is given
the list of pending random samples as fuel; `none` is loop non-termination. -/
def generate_room_code (t : RoomTable) : List Nat → Option Str
  | [] => none
  | seed :: rest =>
    let code := sampleCode seed
    if (dictGet t code).isNone then some code
    else generate_room_code t rest

deriving instance DecidableEq for Except

/-- The errors of the JSON error responses of the room endpoints. -/
inductive ApiError
  | MissingBody
  | MissingCode
  | MissingPlayerName
  | InvalidCodeFormat
  | RoomNotFound
  | DuplicatePlayer
  | RoomFull
  | InvalidStatus
deriving Repr, DecidableEq

/-- The room-code format guard `len(code) == 6 and code.isdigit()`. -/
def isValidCodeFormat (code : Str) : Bool :=
  code.length = 6 && code.all pyIsDigit

/-- Request body of `POST /room/create`; both fields optional. -/
structure CreateRequest where
  host_name : Option Str
  max_players : Option Int
deriving Repr, DecidableEq

/-- Response of a successful `create_room`. -/
structure CreateResponse where
  room_code : Str
  host_name : Str
  created_at : Int
  expires_at : Int
  max_players : Int
deriving Repr, DecidableEq

/-- `create_room` (server.py lines 61-108), with the freshly generated code
passed in as `room_code` (its generation is `generate_room_code`).  The
handler sweeps, reads the defaults, clamps `max_players` with `min`, builds
the room and stores it.  It has no error path. -/
def create_room (t : RoomTable) (now : Int) (room_code : Str)
    (data : Option CreateRequest) : (CreateResponse × Room) × RoomTable :=
  let t1 := cleanup_expired_rooms now t
  let d := data.getD ⟨none, none⟩
  let host_name := d.host_name.getD (str "Host")
  let max_players := min (d.max_players.getD MAX_PLAYERS_PER_ROOM) MAX_PLAYERS_PER_ROOM
  let created_at := now
  let expires_at := created_at + ROOM_EXPIRY_MINUTES * 60
  let room : Room :=
    { code := room_code, host_name := host_name, players := [host_name],
      created_at := created_at, expires_at := expires_at,
      max_players := max_players, status := str "waiting" }
  ((⟨room_code, host_name, created_at, expires_at, max_players⟩, room),
    dictSet t1 room_code room)

/-- Request body of `POST /room/join`. -/
structure JoinRequest where
  room_code : Option Str
  player_name : Option Str
deriving Repr, DecidableEq

/-- Response of a successful `join_room`. -/
structure JoinResponse where
  room_code : Str
  player_name : Str
  players : List Str
  host_name : Str
  player_count : Nat
  max_players : Int
  status : Str
deriving Repr, DecidableEq

/-- `join_room` (server.py lines 111-172): sweep; reject a missing body;
strip both fields; check emptiness of code then of name; check the 6-digit
format; look the room up; reject duplicates and full rooms; append. -/
def join_room (t : RoomTable) (now : Int) (data : Option JoinRequest) :
    Except ApiError JoinResponse × RoomTable :=
  let t1 := cleanup_expired_rooms now t
  match data with
  | none => (.error .MissingBody, t1)
  | some d =>
    let room_code := pyStrip (d.room_code.getD [])
    let player_name := pyStrip (d.player_name.getD [])
    if room_code = [] then (.error .MissingCode, t1)
    else if player_name = [] then (.error .MissingPlayerName, t1)
    else if ¬ isValidCodeFormat room_code then (.error .InvalidCodeFormat, t1)
    else
      match dictGet t1 room_code with
      | none => (.error .RoomNotFound, t1)
      | some room =>
        if player_name ∈ room.players then (.error .DuplicatePlayer, t1)
        else if (room.players.length : Int) ≥ room.max_players then
          (.error .RoomFull, t1)
        else
          let room' := { room with players := room.players ++ [player_name] }
          (.ok ⟨room_code, player_name, room'.players, room.host_name,
              room'.players.length, room.max_players, room.status⟩,
            dictSet t1 room_code room')

/-- Response of a successful `get_room_info`. -/
structure GetResponse where
  room_code : Str
  host_name : Str
  players : List Str
  player_count : Nat
  max_players : Int
  status : Str
  created_at : Int
  expires_at : Int
deriving Repr, DecidableEq

/-- `get_room_info` (server.py lines 175-212): sweep, validate the (raw,
unstripped) path parameter's format, look the room up, project it. -/
def get_room_info (t : RoomTable) (now : Int) (room_code : Str) :
    Except ApiError GetResponse × RoomTable :=
  let t1 := cleanup_expired_rooms now t
  if ¬ isValidCodeFormat room_code then (.error .InvalidCodeFormat, t1)
  else
    match dictGet t1 room_code with
    | none => (.error .RoomNotFound, t1)
    | some room =>
      (.ok ⟨room.code, room.host_name, room.players, room.players.length,
          room.max_players, room.status, room.created_at, room.expires_at⟩, t1)

/-- Request body of `PUT /room/<room_code>`. -/
structure UpdateRequest where
  status : Option Str
deriving Repr, DecidableEq

/-- Response of a successful `update_room_status`. -/
structure UpdateResponse where
  room_code : Str
  status : Str
deriving Repr, DecidableEq

/-- The fixed status vocabulary `valid_statuses` (room_routes.py line 235). -/
def valid_statuses : List Str :=
  [str "waiting", str "ready", str "playing", str "finished"]

/-- `update_room_status` (room_routes.py lines 206-253): sweep, validate the
path parameter's format, reject a missing body, strip the status and check
it against the vocabulary, look the room up, overwrite its status. -/
def update_room_status (t : RoomTable) (now : Int) (room_code : Str)
    (data : Option UpdateRequest) : Except ApiError UpdateResponse × RoomTable :=
  let t1 := cleanup_expired_rooms now t
  if ¬ isValidCodeFormat room_code then (.error .InvalidCodeFormat, t1)
  else
    match data with
    | none => (.error .MissingBody, t1)
    | some d =>
      let new_status := pyStrip (d.status.getD [])
      if new_status ∉ valid_statuses then (.error .InvalidStatus, t1)
      else
        match dictGet t1 room_code with
        | none => (.error .RoomNotFound, t1)
        | some room =>
          (.ok ⟨room_code, new_status⟩,
            dictSet t1 room_code { room with status := new_status })

/-- One entry of the `list_rooms` listing. -/
structure RoomSummary where
  room_code : Str
  host_name : Str
  player_count : Nat
  max_players : Int
  status : Str
deriving Repr, DecidableEq

/-- `list_rooms` (server.py lines 215-243): sweep, then project every room
to a condensed summary. -/
def list_rooms (t : RoomTable) (now : Int) : (List RoomSummary × Nat) × RoomTable :=
  let t1 := cleanup_expired_rooms now t
  let rooms := t1.map (fun p =>
    (⟨p.2.code, p.2.host_name, p.2.players.length, p.2.max_players, p.2.status⟩ :
      RoomSummary))
  ((rooms, rooms.length), t1)

/-- One externally triggered operation on the room table, abstracting over
its request data and its `datetime.now()` value.  For `create` the freshly
generated code is part of the operation (see `generate_room_code`). -/
inductive Op
  | create (now : Int) (room_code : Str) (data : Option CreateRequest)
  | join (now : Int) (data : Option JoinRequest)
  | get (now : Int) (room_code : Str)
  | update (now : Int) (room_code : Str) (data : Option UpdateRequest)
  | listAll (now : Int)
deriving Repr, DecidableEq

/-- The table after one operation (its response is discarded). -/
def applyOp (t : RoomTable) : Op → RoomTable
  | .create now code data => (create_room t now code data).2
  | .join now data => (join_room t now data).2
  | .get now code => (get_room_info t now code).2
  | .update now code data => (update_room_status t now code data).2
  | .listAll now => (list_rooms t now).2

/-- The table after a sequence of operations. -/
def runOps (t : RoomTable) (ops : List Op) : RoomTable :=
  ops.foldl applyOp t

/-- The per-room invariant of the spec:
`1 ≤ len(players) ≤ max_players ≤ MAX_PLAYERS_PER_ROOM`. -/
def RoomInv (r : Room) : Prop :=
  1 ≤ r.players.length ∧ (r.players.length : Int) ≤ r.max_players ∧
    r.max_players ≤ MAX_PLAYERS_PER_ROOM

instance (r : Room) : Decidable (RoomInv r) := by
  unfold RoomInv; infer_instance

/-- A create request whose effective `max_players` (the supplied value, or
the `MAX_PLAYERS_PER_ROOM` default) is at least 1; the other operations are
unrestricted. -/
def GoodOp : Op → Prop
  | .create _ _ data =>
    1 ≤ (data.getD ⟨none, none⟩).max_players.getD MAX_PLAYERS_PER_ROOM
  | _ => True

instance : DecidablePred GoodOp := fun op => by
  cases op <;> simp only [GoodOp] <;> infer_instance

/-- `create_room` composed with its code generator, as the handler runs them
(server.py lines 81-91): the sweep's table is what `generate_room_code`
reads, and also the table the insertion happens on. -/
def create_room_with_gen (t : RoomTable) (now : Int) (seeds : List Nat)
    (data : Option CreateRequest) : Option ((CreateResponse × Room) × RoomTable) :=
  (generate_room_code (cleanup_expired_rooms now t) seeds).map
    (fun code => create_room t now code data)

/-- The lock-relevant events of a handler body, in source order. -/
inductive LockEvent
  | acquire
  | release
  | sweep
  | genCheck
  | insert
deriving Repr, DecidableEq

/-- The event sequence of one `create_room` call (server.py lines 81-100):
`cleanup_expired_rooms()` (line 81) acquires the lock, sweeps and releases
(lines 42-48); `generate_room_code()` (line 87) then reads the table's keys
with no lock held (line 35); finally a new `with room_lock:` block (line 91)
performs the insertion (line 92) and releases. -/
def create_room_events : List LockEvent :=
  [.acquire, .sweep, .release, .genCheck, .acquire, .insert, .release]

/-- Annotate each event with the index of the lock acquisition it runs
under (`none`: the lock is not held). -/
def csIndex : List LockEvent → Nat → Option Nat → List (LockEvent × Option Nat)
  | [], _, _ => []
  | .acquire :: r, n, _ => (.acquire, some n) :: csIndex r n (some n)
  | .release :: r, n, cur => (.release, cur) :: csIndex r (n + 1) none
  | .sweep :: r, n, cur => (.sweep, cur) :: csIndex r n cur
  | .genCheck :: r, n, cur => (.genCheck, cur) :: csIndex r n cur
  | .insert :: r, n, cur => (.insert, cur) :: csIndex r n cur

def annotate (evs : List LockEvent) : List (LockEvent × Option Nat) :=
  csIndex evs 0 none

/-- `e1` and `e2` both occur while the lock is held, under one and the same
acquisition of it. -/
def sameAcquisition (evs : List LockEvent) (e1 e2 : LockEvent) : Bool :=
  (annotate evs).any (fun p => p.1 = e1 && p.2.isSome &&
    (annotate evs).any (fun q => q.1 = e2 && q.2 = p.2))

/-- A live room fixture used in concrete instantiations. -/
def sampleRoom : Room :=
  { code := str "123456", host_name := str "Alice", players := [str "Alice"],
    created_at := 0, expires_at := 1800, max_players := 10,
    status := str "waiting" }

/-- An already expired room fixture (its `expires_at` lies in the past of
every non-negative `now`). -/
def expiredRoom : Room :=
  { code := str "111111", host_name := str "Bob", players := [str "Bob"],
    created_at := -3600, expires_at := -1800, max_players := 10,
    status := str "waiting" }

lemma dictGet_cons (p : Str × Room) (t : RoomTable) (k : Str) :
    dictGet (p :: t) k = if p.1 = k then some p.2 else dictGet t k := by
  simp only [dictGet, List.find?_cons]
  split <;> rename_i h <;> simp_all

lemma dictGet_replace {t : RoomTable} {k : Str} (v : Room)
    (h : t.any (fun p => p.1 = k) = true) :
    dictGet (t.map (fun p => if p.1 = k then (k, v) else p)) k = some v := by
  induction t with
  | nil => simp at h
  | cons q rest ih =>
    by_cases hq : q.1 = k
    · simp [List.map_cons, if_pos hq, dictGet_cons]
    · simp only [List.map_cons, if_neg hq, dictGet_cons, if_neg hq]
      apply ih
      rw [List.any_cons] at h
      rcases (Bool.or_eq_true _ _) ▸ h with h1 | h2
      · exact absurd (of_decide_eq_true h1) hq
      · exact h2

lemma dictGet_append_single (t : RoomTable) (k : Str) (v : Room) :
    dictGet (t ++ [(k, v)]) k = (dictGet t k).getD v := by
  induction t with
  | nil => simp [dictGet_cons, dictGet]
  | cons q rest ih =>
    by_cases hq : q.1 = k
    · simp [List.cons_append, dictGet_cons, hq]
    · simp [List.cons_append, dictGet_cons, hq, ih]

lemma dictGet_eq_none {t : RoomTable} {k : Str}
    (h : t.any (fun p => p.1 = k) = false) : dictGet t k = none := by
  induction t with
  | nil => rfl
  | cons q rest ih =>
    simp only [List.any_cons, Bool.or_eq_false_iff] at h
    rw [dictGet_cons, if_neg (by simpa using h.1)]
    exact ih h.2

lemma dictGet_dictSet_self (t : RoomTable) (k : Str) (v : Room) :
    dictGet (dictSet t k v) k = some v := by
  unfold dictSet
  split
  · exact dictGet_replace v (by assumption)
  · rename_i h
    rw [dictGet_append_single, dictGet_eq_none (Bool.eq_false_iff.mpr h)]
    rfl

lemma mem_cleanup {p : Str × Room} {now : Int} {t : RoomTable}
    (h : p ∈ cleanup_expired_rooms now t) : p ∈ t :=
  List.mem_of_mem_filter h

lemma expires_of_mem_cleanup {p : Str × Room} {now : Int} {t : RoomTable}
    (h : p ∈ cleanup_expired_rooms now t) : now ≤ p.2.expires_at := by
  unfold cleanup_expired_rooms at h
  have hb := List.of_mem_filter h
  exact of_decide_eq_true hb

lemma cleanup_of_all_live {now : Int} {t : RoomTable}
    (h : ∀ p ∈ t, now ≤ p.2.expires_at) : cleanup_expired_rooms now t = t := by
  unfold cleanup_expired_rooms
  induction t with
  | nil => rfl
  | cons q rest ih =>
    rw [List.filter_cons, if_pos (decide_eq_true (h q (by simp)))]
    rw [ih (fun p hp => h p (by simp [hp]))]

lemma digit_not_space {c : Char} (h : pyIsDigit c = true) : pyIsSpace c = false := by
  simp only [pyIsDigit, Bool.and_eq_true, decide_eq_true_eq] at h
  simp only [pyIsSpace, Bool.or_eq_false_iff, decide_eq_false_iff_not]
  refine ⟨⟨⟨⟨⟨?_, ?_⟩, ?_⟩, ?_⟩, ?_⟩, ?_⟩ <;> rintro rfl <;> revert h <;> decide

lemma dropWhile_all_false {p : Char → Bool} {l : Str} (h : ∀ c ∈ l, p c = false) :
    l.dropWhile p = l := by
  cases l with
  | nil => rfl
  | cons a l => simp [List.dropWhile_cons, h a (by simp)]

lemma pyStrip_digits {s : Str} (h : s.all pyIsDigit = true) : pyStrip s = s := by
  have hd : ∀ c ∈ s, pyIsSpace c = false := fun c hc =>
    digit_not_space (List.all_eq_true.1 h c hc)
  unfold pyStrip
  rw [dropWhile_all_false hd,
    dropWhile_all_false (fun c hc => hd c (List.mem_reverse.1 hc)),
    List.reverse_reverse]

lemma sampleCode_length (seed : Nat) : (sampleCode seed).length = 6 := by
  simp [sampleCode]

lemma sampleCode_digits (seed : Nat) : (sampleCode seed).all pyIsDigit = true := by
  rw [List.all_eq_true]
  intro c hc
  rcases List.mem_map.1 hc with ⟨i, _, rfl⟩
  have h10 : seed / 10 ^ i % 10 < 10 := Nat.mod_lt _ (by norm_num)
  set k := seed / 10 ^ i % 10 with hk
  interval_cases k <;> decide

/-- Every code the generator returns is a 6-digit string that was not a key
of the table when its membership check succeeded. -/
lemma generate_room_code_spec {t : RoomTable} {seeds : List Nat} {code : Str}
    (h : generate_room_code t seeds = some code) :
    code.length = 6 ∧ code.all pyIsDigit = true ∧ dictGet t code = none := by
  induction seeds with
  | nil => simp [generate_room_code] at h
  | cons s rest ih =>
    simp only [generate_room_code] at h
    split at h
    · rename_i hfree
      cases h
      exact ⟨sampleCode_length s, sampleCode_digits s,
        Option.isNone_iff_eq_none.1 hfree⟩
    · exact ih h


lemma mem_dictSet {p : Str × Room} {t : RoomTable} {k : Str} {v : Room}
    (h : p ∈ dictSet t k v) : p = (k, v) ∨ p ∈ t := by
  unfold dictSet at h
  split at h
  · rcases List.mem_map.1 h with ⟨q, hq, hpq⟩
    by_cases hk : q.1 = k
    · simp [hk] at hpq; exact Or.inl hpq.symm
    · simp [hk] at hpq; exact Or.inr (hpq ▸ hq)
  · rcases List.mem_append.1 h with h' | h'
    · exact Or.inr h'
    · simp at h'; exact Or.inl h'

lemma dictGet_mem {t : RoomTable} {k : Str} {r : Room}
    (h : dictGet t k = some r) : (k, r) ∈ t := by
  unfold dictGet at h
  rcases Option.map_eq_some'.1 h with ⟨q, hq, hr⟩
  have hmem := List.mem_of_find?_eq_some hq
  have hkey := List.find?_some hq
  simp at hkey
  have : q = (k, r) := by
    cases q; simp_all
  exact this ▸ hmem

/-- Every table reachable by one operation from an invariant-respecting table
(with a well-behaved create request) respects the invariant. -/
lemma applyOp_preserves_inv {t : RoomTable} {op : Op}
    (hinv : ∀ p ∈ t, RoomInv p.2) (hop : GoodOp op) :
    ∀ p ∈ applyOp t op, RoomInv p.2 := by
  intro p hp
  cases op with
  | create now code data =>
    simp only [applyOp, create_room] at hp
    rcases mem_dictSet hp with rfl | hmem
    · simp only [GoodOp] at hop
      refine ⟨by simp, ?_, min_le_right _ _⟩
      simp only [List.length_singleton, Nat.cast_one, le_min_iff]
      exact ⟨hop, by norm_num [MAX_PLAYERS_PER_ROOM]⟩
    · exact hinv _ (mem_cleanup hmem)
  | join now data =>
    simp only [applyOp, join_room] at hp
    rcases data with _ | d
    · exact hinv _ (mem_cleanup hp)
    · simp only at hp
      split at hp
      · exact hinv _ (mem_cleanup hp)
      · split at hp
        · exact hinv _ (mem_cleanup hp)
        · split at hp
          · exact hinv _ (mem_cleanup hp)
          · rcases hg : dictGet (cleanup_expired_rooms now t)
                (pyStrip (d.room_code.getD [])) with _ | room
            · rw [hg] at hp; exact hinv _ (mem_cleanup hp)
            · rw [hg] at hp
              simp only at hp
              split at hp
              · exact hinv _ (mem_cleanup hp)
              · split at hp
                · exact hinv _ (mem_cleanup hp)
                · rcases mem_dictSet hp with rfl | hmem
                  · have hroom : RoomInv room :=
                      hinv _ (mem_cleanup (dictGet_mem hg))
                    rename_i hfull
                    push_neg at hfull
                    refine ⟨by simp, ?_, hroom.2.2⟩
                    simp only [List.length_append, List.length_cons,
                      List.length_nil]
                    push_cast
                    omega
                  · exact hinv _ (mem_cleanup hmem)
  | get now code =>
    simp only [applyOp, get_room_info] at hp
    split at hp
    · exact hinv _ (mem_cleanup hp)
    · split at hp <;> exact hinv _ (mem_cleanup hp)
  | update now code data =>
    simp only [applyOp, update_room_status] at hp
    split at hp
    · exact hinv _ (mem_cleanup hp)
    · rcases data with _ | d
      · exact hinv _ (mem_cleanup hp)
      · simp only at hp
        split at hp
        · exact hinv _ (mem_cleanup hp)
        · rcases hg : dictGet (cleanup_expired_rooms now t) code with _ | room
          · rw [hg] at hp; exact hinv _ (mem_cleanup hp)
          · rw [hg] at hp
            rcases mem_dictSet hp with rfl | hmem
            · have hroom : RoomInv room :=
                hinv _ (mem_cleanup (dictGet_mem hg))
              exact ⟨hroom.1, hroom.2.1, hroom.2.2⟩
            · exact hinv _ (mem_cleanup hmem)
  | listAll now =>
    simp only [applyOp, list_rooms] at hp
    exact hinv _ (mem_cleanup hp)

lemma runOps_preserves_inv {t : RoomTable} {ops : List Op}
    (hinv : ∀ p ∈ t, RoomInv p.2) (hops : ∀ op ∈ ops, GoodOp op) :
    ∀ p ∈ runOps t ops, RoomInv p.2 := by
  induction ops generalizing t with
  | nil => exact hinv
  | cons op rest ih =>
    exact ih (applyOp_preserves_inv hinv (hops op (by simp)))
      (fun o ho => hops o (by simp [ho]))

/-- **C1** counterexample: a `CreateRoom` whose requested `max_players` is 0
produces a room with one player (the host) but `max_players = 0`, so the
invariant `1 ≤ len(players) ≤ max_players` fails: the clamp
`min(requested, MAX_PLAYERS_PER_ROOM)` imposes no lower bound. -/
theorem create_room_zero_max_players_breaks_invariant :
    ¬ ∀ p ∈ runOps [] [Op.create 0 (str "123456") (some ⟨none, some 0⟩)],
        1 ≤ p.2.players.length ∧ (p.2.players.length : Int) ≤ p.2.max_players ∧
          p.2.max_players ≤ MAX_PLAYERS_PER_ROOM := by
  decide

/-- **C1** (corrected): after any sequence of CreateRoom, JoinRoom,
UpdateStatus, GetRoom and ListRooms operations in which every create request
has an effective `max_players` of at least 1, every room in the table
satisfies `1 ≤ len(players) ≤ max_players ≤ MAX_PLAYERS_PER_ROOM`. -/
theorem room_table_invariant_holds (t0 : RoomTable) (ops : List Op)
    (h0 : ∀ p ∈ t0, RoomInv p.2) (hops : ∀ op ∈ ops, GoodOp op) :
    ∀ p ∈ runOps t0 ops,
      1 ≤ p.2.players.length ∧ (p.2.players.length : Int) ≤ p.2.max_players ∧
        p.2.max_players ≤ MAX_PLAYERS_PER_ROOM :=
  runOps_preserves_inv h0 hops

theorem room_table_invariant_holds_witness :
    1 ≤ [str "Alice", str "Bob"].length ∧
      (([str "Alice", str "Bob"].length : Nat) : Int) ≤ 2 ∧
      (2 : Int) ≤ MAX_PLAYERS_PER_ROOM :=
  room_table_invariant_holds []
    [Op.create 0 (str "123456") (some ⟨some (str "Alice"), some 2⟩),
      Op.join 1 (some ⟨some (str "123456"), some (str "Bob")⟩)]
    (by decide) (by decide)
    (str "123456", ⟨str "123456", str "Alice", [str "Alice", str "Bob"], 0,
      1800, 2, str "waiting"⟩)
    (by decide)

/-- **C2** counterexample: a room whose `expires_at` equals `now` is still
visible — the sweep deletes only on strict `now > expires_at`, so `GetRoom`
returns the room at its exact expiry instant. -/
theorem room_at_expiry_instant_visible :
    (get_room_info [(str "123456",
        { code := str "123456", host_name := str "Alice",
          players := [str "Alice"], created_at := -1800, expires_at := 0,
          max_players := 10, status := str "waiting" })] 0 (str "123456")).1 =
      .ok ⟨str "123456", str "Alice", [str "Alice"], 1, 10, str "waiting",
        -1800, 0⟩ := by
  decide

/-- **C2** (corrected): every room that survives the expiry sweep — and
hence every room observed by any external operation — satisfies
`now ≤ expires_at` (not the strict `now < expires_at`): in particular
`GetRoom` only ever returns rooms with `now ≤ expires_at`. -/
theorem visible_rooms_not_expired (t : RoomTable) (now : Int) :
    (∀ p ∈ cleanup_expired_rooms now t, now ≤ p.2.expires_at) ∧
    (∀ code resp, (get_room_info t now code).1 = .ok resp →
      now ≤ resp.expires_at) := by
  refine ⟨fun p hp => expires_of_mem_cleanup hp, ?_⟩
  intro code resp h
  unfold get_room_info at h
  split at h
  · simp at h
  · rcases hg : dictGet (cleanup_expired_rooms now t) code with _ | room
    · simp only [hg] at h
      simp at h
    · simp only [hg] at h
      have hexp := expires_of_mem_cleanup (dictGet_mem hg)
      cases h
      exact hexp

theorem visible_rooms_not_expired_witness :
    (0 : Int) ≤ sampleRoom.expires_at :=
  (visible_rooms_not_expired [(str "123456", sampleRoom)] 0).1
    (str "123456", sampleRoom) (by decide)

/-- **C3** counterexample: for a request whose code is non-empty but not 6
digits and whose player name is empty after trimming, `join_room` returns
`MissingPlayerName`, not `InvalidCodeFormat`. -/
theorem join_name_error_beats_format_error :
    (join_room [] 0 (some ⟨some (str "12AB56"), some (str " ")⟩)).1 =
        .error .MissingPlayerName ∧
      (join_room [] 0 (some ⟨some (str "12AB56"), some (str " ")⟩)).1 ≠
        .error .InvalidCodeFormat := by
  decide

/-- **C3** (corrected): the player-name emptiness check precedes the
code-format check in `join_room`: every request with a body whose stripped
code is non-empty and whose stripped player name is empty is answered with
`MissingPlayerName`, whatever the code's format. -/
theorem join_missing_name_short_circuit (t : RoomTable) (now : Int)
    (rc pn : Option Str) (hc : pyStrip (rc.getD []) ≠ [])
    (hn : pyStrip (pn.getD []) = []) :
    (join_room t now (some ⟨rc, pn⟩)).1 = .error .MissingPlayerName := by
  simp [join_room, hc, hn]

theorem join_missing_name_short_circuit_witness :
    (join_room [] 0 (some ⟨some (str "12AB5"), some (str "  ")⟩)).1 =
      .error .MissingPlayerName :=
  join_missing_name_short_circuit [] 0 _ _ (by decide) (by decide)

/-- `get_room_info` on a one-room table: returned iff not expired. -/
lemma get_room_info_singleton (room : Room) (now : Int) (code : Str)
    (hc : isValidCodeFormat code = true) :
    (get_room_info [(code, room)] now code).1 =
      if now ≤ room.expires_at then
        .ok ⟨room.code, room.host_name, room.players, room.players.length,
          room.max_players, room.status, room.created_at, room.expires_at⟩
      else .error .RoomNotFound := by
  unfold get_room_info cleanup_expired_rooms
  by_cases h : now ≤ room.expires_at
  · simp [h, hc, dictGet_cons]
  · simp [h, hc, dictGet]

/-- **C4** (confirmed): expiry is a strict greater-than boundary.  For a
room created at time `T` (with `ROOM_EXPIRY_MINUTES = 30`), `GetRoom` —
which itself runs the sweep — returns the room at every `now` up to and
including `T + 30` minutes exactly, and returns `RoomNotFound` at every
later `now`. -/
theorem expiry_strict_boundary (T now : Int) (code : Str)
    (data : Option CreateRequest) (hc : isValidCodeFormat code = true) :
    (now ≤ T + ROOM_EXPIRY_MINUTES * 60 →
      ∃ resp, (get_room_info ((create_room [] T code data).2) now code).1 =
        .ok resp) ∧
    (T + ROOM_EXPIRY_MINUTES * 60 < now →
      (get_room_info ((create_room [] T code data).2) now code).1 =
        .error .RoomNotFound) := by
  have hT : (create_room [] T code data).2 =
      [(code, (create_room [] T code data).1.2)] := by
    simp [create_room, cleanup_expired_rooms, dictSet]
  have hexp : (create_room [] T code data).1.2.expires_at =
      T + ROOM_EXPIRY_MINUTES * 60 := by
    simp [create_room]
  constructor
  · intro hle
    exact ⟨_, by
      rw [hT, get_room_info_singleton _ _ _ hc,
        if_pos (by rw [hexp]; exact hle)]⟩
  · intro hlt
    rw [hT, get_room_info_singleton _ _ _ hc,
      if_neg (by rw [hexp]; exact not_le.mpr hlt)]

theorem expiry_strict_boundary_witness :
    (∃ resp,
      (get_room_info ((create_room [] 0 (str "123456") none).2) 1800
          (str "123456")).1 = .ok resp) ∧
    (get_room_info ((create_room [] 0 (str "123456") none).2) 1801
        (str "123456")).1 = .error .RoomNotFound :=
  ⟨(expiry_strict_boundary 0 1800 (str "123456") none (by decide)).1
      (by decide),
    (expiry_strict_boundary 0 1801 (str "123456") none (by decide)).2
      (by decide)⟩

/-- **C5** counterexample: in `create_room` the generator's membership check
and the table insertion do NOT happen under one and the same acquisition of
the store's lock: the code is generated at a point where the lock is not
held at all (server.py line 87 sits between the two `with room_lock:`
blocks), so a check-to-insert window exists. -/
theorem create_room_gen_insert_not_same_acquisition :
    sameAcquisition create_room_events LockEvent.genCheck LockEvent.insert =
        false ∧
      (LockEvent.genCheck, (none : Option Nat)) ∈
        annotate create_room_events := by
  decide

/-- **C5** (corrected): the expiry sweep (under the first lock acquisition)
does come before code generation, but the generation runs with the lock not
held, and the insertion runs under a separate, later acquisition; sweep and
insertion do not share an acquisition window either. -/
theorem create_room_lock_discipline :
    ((annotate create_room_events).indexOf (LockEvent.sweep, some 0) <
      (annotate create_room_events).indexOf
        (LockEvent.genCheck, (none : Option Nat))) ∧
    (LockEvent.sweep, some 0) ∈ annotate create_room_events ∧
    (LockEvent.genCheck, (none : Option Nat)) ∈ annotate create_room_events ∧
    (LockEvent.insert, some 1) ∈ annotate create_room_events ∧
    sameAcquisition create_room_events LockEvent.sweep LockEvent.insert =
      false := by
  decide

/-- **C6** (confirmed): `create_room` is total (always succeeds) and the
room it builds and inserts has `host_name` the supplied value or `"Host"`,
`players = [host_name]`, `status = waiting`,
`expires_at = created_at + ROOM_EXPIRY_MINUTES` (in seconds), and
`max_players = min(requested, MAX_PLAYERS_PER_ROOM)` when requested,
`MAX_PLAYERS_PER_ROOM` when absent. -/
theorem create_room_fields (t : RoomTable) (now : Int) (code : Str)
    (data : Option CreateRequest) :
    ((create_room t now code data).1.2.code = code) ∧
    ((create_room t now code data).1.2.host_name =
      (data.getD ⟨none, none⟩).host_name.getD (str "Host")) ∧
    ((create_room t now code data).1.2.players =
      [(create_room t now code data).1.2.host_name]) ∧
    ((create_room t now code data).1.2.status = str "waiting") ∧
    ((create_room t now code data).1.2.created_at = now) ∧
    ((create_room t now code data).1.2.expires_at =
      (create_room t now code data).1.2.created_at +
        ROOM_EXPIRY_MINUTES * 60) ∧
    ((create_room t now code data).1.2.max_players =
      match (data.getD ⟨none, none⟩).max_players with
      | some m => min m MAX_PLAYERS_PER_ROOM
      | none => MAX_PLAYERS_PER_ROOM) ∧
    (dictGet (create_room t now code data).2 code =
      some (create_room t now code data).1.2) := by
  rcases data with _ | d
  · simp [create_room, dictGet_dictSet_self]
  · rcases hm : d.max_players with _ | m <;>
      simp [create_room, hm, dictGet_dictSet_self]

/-- **C7** (confirmed): every code returned by the generator is exactly 6
decimal digits and is not a key of the table at the moment its membership
check succeeds; consequently every successful `create_room` (composed with
its generator, which reads the swept table) returns a code that was not a
key of the table immediately prior to insertion. -/
theorem create_room_code_fresh (t : RoomTable) (now : Int) (seeds : List Nat)
    (data : Option CreateRequest) (res : (CreateResponse × Room) × RoomTable)
    (h : create_room_with_gen t now seeds data = some res) :
    res.1.1.room_code.length = 6 ∧ res.1.1.room_code.all pyIsDigit = true ∧
      dictGet (cleanup_expired_rooms now t) res.1.1.room_code = none := by
  unfold create_room_with_gen at h
  rcases hg : generate_room_code (cleanup_expired_rooms now t) seeds
    with _ | code
  · rw [hg] at h; simp at h
  · rw [hg] at h
    simp only [Option.map_some'] at h
    obtain ⟨h1, h2, h3⟩ := generate_room_code_spec hg
    cases h
    exact ⟨h1, h2, h3⟩

theorem create_room_code_fresh_witness :
    (sampleCode 0).length = 6 ∧ (sampleCode 0).all pyIsDigit = true ∧
      dictGet (cleanup_expired_rooms 0 []) (sampleCode 0) = none :=
  create_room_code_fresh [] 0 [0] none
    (create_room [] 0 (sampleCode 0) none) (by decide)

/-- `get_room_info` on a sweep-stable table containing the code. -/
lemma get_room_info_found {t : RoomTable} {now : Int} {code : Str}
    {room : Room} (hc : isValidCodeFormat code = true)
    (hlive : cleanup_expired_rooms now t = t)
    (hg : dictGet t code = some room) :
    (get_room_info t now code).1 =
      .ok ⟨room.code, room.host_name, room.players, room.players.length,
        room.max_players, room.status, room.created_at, room.expires_at⟩ := by
  unfold get_room_info
  simp only [hlive, hg, hc]
  rfl

/-- **C8** (confirmed): with a well-formed code and a body present,
`update_room_status` answers `InvalidStatus` exactly when the (stripped)
supplied status is outside `{waiting, ready, playing, finished}`; when it is
a member and the room exists, the status is overwritten unconditionally —
whatever the previous status — and a subsequent `GetRoom` on the same code
returns the room with the new status. -/
theorem update_room_status_correct (t : RoomTable) (now : Int)
    (room_code : Str) (d : UpdateRequest)
    (hc : isValidCodeFormat room_code = true) :
    ((update_room_status t now room_code (some d)).1 =
        .error .InvalidStatus ↔
      pyStrip (d.status.getD []) ∉ valid_statuses) ∧
    (∀ room, dictGet (cleanup_expired_rooms now t) room_code = some room →
      pyStrip (d.status.getD []) ∈ valid_statuses →
      (get_room_info (update_room_status t now room_code (some d)).2 now
          room_code).1 =
        .ok ⟨room.code, room.host_name, room.players, room.players.length,
          room.max_players, pyStrip (d.status.getD []), room.created_at,
          room.expires_at⟩) := by
  have hbody : update_room_status t now room_code (some d) =
      if pyStrip (d.status.getD []) ∉ valid_statuses then
        (.error .InvalidStatus, cleanup_expired_rooms now t)
      else
        match dictGet (cleanup_expired_rooms now t) room_code with
        | none => (.error .RoomNotFound, cleanup_expired_rooms now t)
        | some room =>
          (.ok ⟨room_code, pyStrip (d.status.getD [])⟩,
            dictSet (cleanup_expired_rooms now t) room_code
              { room with status := pyStrip (d.status.getD []) }) := by
    unfold update_room_status
    rw [if_neg (by simp [hc])]
  constructor
  · rw [hbody]
    by_cases hval : pyStrip (d.status.getD []) ∈ valid_statuses
    · rw [if_neg (not_not_intro hval)]
      rcases hg : dictGet (cleanup_expired_rooms now t) room_code
        with _ | room <;> simp [hg, hval]
    · rw [if_pos hval]
      simp [hval]
  · intro room hg hval
    have hupd : (update_room_status t now room_code (some d)).2 =
        dictSet (cleanup_expired_rooms now t) room_code
          { room with status := pyStrip (d.status.getD []) } := by
      rw [hbody, if_neg (not_not_intro hval), hg]
    rw [hupd]
    have hlive : ∀ p ∈ dictSet (cleanup_expired_rooms now t) room_code
        { room with status := pyStrip (d.status.getD []) },
        now ≤ p.2.expires_at := by
      intro p hp
      rcases mem_dictSet hp with rfl | hmem
      · have hmem0 : ((room_code, room) : Str × Room) ∈
            cleanup_expired_rooms now t := dictGet_mem hg
        show now ≤ room.expires_at
        exact expires_of_mem_cleanup hmem0
      · exact expires_of_mem_cleanup hmem
    exact get_room_info_found hc (cleanup_of_all_live hlive)
      (dictGet_dictSet_self _ _ _)

theorem update_room_status_correct_witness :
    (get_room_info (update_room_status [(str "123456", sampleRoom)] 0
          (str "123456") (some ⟨some (str "ready")⟩)).2 0 (str "123456")).1 =
      .ok ⟨sampleRoom.code, sampleRoom.host_name, sampleRoom.players,
        sampleRoom.players.length, sampleRoom.max_players,
        pyStrip ((some (str "ready")).getD []), sampleRoom.created_at,
        sampleRoom.expires_at⟩ :=
  (update_room_status_correct [(str "123456", sampleRoom)] 0 (str "123456")
      ⟨some (str "ready")⟩ (by decide)).2 sampleRoom (by decide) (by decide)

/-- **C9** counterexample: a `JoinRoom` call that fails the code-format
check still runs the expiry sweep first, so on a table holding an expired
room the failed call does remove that room — the table is NOT left
unchanged. -/
theorem join_invalid_format_still_sweeps :
    (join_room [(str "111111", expiredRoom)] 0
        (some ⟨some (str "12AB56"), some (str "X")⟩)).1 =
        .error .InvalidCodeFormat ∧
      (join_room [(str "111111", expiredRoom)] 0
          (some ⟨some (str "12AB56"), some (str "X")⟩)).2 ≠
        [(str "111111", expiredRoom)] := by
  decide

/-- **C9** (corrected): a `JoinRoom` call that fails code-format validation
returns `InvalidCodeFormat` and mutates the table only through the expiry
sweep every operation performs first: the post-state is exactly the swept
pre-state, so on a table with no expired rooms it is unchanged. -/
theorem join_invalid_format_table_unchanged (t : RoomTable) (now : Int)
    (rc pn : Option Str) (hc : pyStrip (rc.getD []) ≠ [])
    (hn : pyStrip (pn.getD []) ≠ [])
    (hf : isValidCodeFormat (pyStrip (rc.getD [])) = false) :
    (join_room t now (some ⟨rc, pn⟩)).1 = .error .InvalidCodeFormat ∧
    (join_room t now (some ⟨rc, pn⟩)).2 = cleanup_expired_rooms now t ∧
    ((∀ p ∈ t, now ≤ p.2.expires_at) →
      (join_room t now (some ⟨rc, pn⟩)).2 = t) := by
  have h1 : join_room t now (some ⟨rc, pn⟩) =
      (.error .InvalidCodeFormat, cleanup_expired_rooms now t) := by
    simp [join_room, hc, hn, hf]
  exact ⟨by rw [h1], by rw [h1],
    fun hlive => by rw [h1]; exact cleanup_of_all_live hlive⟩

theorem join_invalid_format_table_unchanged_witness :
    (join_room [(str "123456", sampleRoom)] 0
        (some ⟨some (str "12AB56"), some (str "X")⟩)).1 =
        .error .InvalidCodeFormat ∧
      (join_room [(str "123456", sampleRoom)] 0
          (some ⟨some (str "12AB56"), some (str "X")⟩)).2 =
        cleanup_expired_rooms 0 [(str "123456", sampleRoom)] ∧
      ((∀ p ∈ [(str "123456", sampleRoom)], (0 : Int) ≤ p.2.expires_at) →
        (join_room [(str "123456", sampleRoom)] 0
            (some ⟨some (str "12AB56"), some (str "X")⟩)).2 =
          [(str "123456", sampleRoom)]) :=
  join_invalid_format_table_unchanged [(str "123456", sampleRoom)] 0
    (some (str "12AB56")) (some (str "X")) (by decide) (by decide) (by decide)

/-- **C10** (confirmed): `join_room` strips leading and trailing whitespace
from the supplied `room_code` before any validation or lookup: a request
whose code strips to a well-formed code `C` behaves identically — same
response, same table — to the request supplying `C` itself. -/
theorem join_room_strips_code (t : RoomTable) (now : Int) (s C : Str)
    (pn : Option Str) (hs : pyStrip s = C)
    (hC : isValidCodeFormat C = true) :
    join_room t now (some ⟨some s, pn⟩) =
      join_room t now (some ⟨some C, pn⟩) := by
  have hCd : C.all pyIsDigit = true := by
    simp only [isValidCodeFormat, Bool.and_eq_true] at hC
    exact hC.2
  have hCC : pyStrip C = C := pyStrip_digits hCd
  unfold join_room
  simp only [Option.getD_some, hs, hCC]

theorem join_room_strips_code_witness :
    join_room [] 0 (some ⟨some (str " 123456 "), some (str "Bob")⟩) =
      join_room [] 0 (some ⟨some (str "123456"), some (str "Bob")⟩) :=
  join_room_strips_code [] 0 (str " 123456 ") (str "123456")
    (some (str "Bob")) (by decide) (by decide)
